import Mathlib

/-!
Verification of the obraseco-sql-legacy catalog service.

The development embeds the service's pure logic:

* `normalize_text` — text normalization (lower-case, accent replacement,
  whitespace collapse and trim), from `app.py`.
* `extract_keywords` — keyword extraction with stop-word filtering and the
  naive singular/plural variant expansion, from `app.py`.
* `search_multi` — the `/search-multi` request handler up to the point where
  it hands a parameterized SQL statement to the database driver; the driver,
  the HTTP framework and the database itself are external collaborators, so
  the handler's result is modelled as either an error response or the pair
  (SQL text, bound parameters).
* `sync_catalog_to_supabase` — the mirror-store synchronization pipeline;
  the HTTP statuses returned by the mirror store's delete and batch-insert
  calls are inputs of the model, and the model records which batches were
  posted and which were accepted.

Character-level collaborators of the Python runtime (`str.lower`,
`str.strip`, the regex classes `\s` and `\w`) are modelled on the Latin-1
range, which covers every character class the program manipulates.
-/

/-- The whitespace characters recognised by Python's `str.strip` and by the
regex class `\s` (restricted to the Basic Multilingual Plane characters
Python actually treats as whitespace). -/
def pyWhitespace : List Char :=
  [' ', '\t', '\n', '\x0b', '\x0c', '\r',
   '\x1c', '\x1d', '\x1e', '\x1f', '\x85', '\xa0',
   '\u1680', '\u2000', '\u2001', '\u2002', '\u2003', '\u2004', '\u2005',
   '\u2006', '\u2007', '\u2008', '\u2009', '\u200a', '\u2028', '\u2029',
   '\u202f', '\u205f', '\u3000']

def pyIsSpace (c : Char) : Bool := pyWhitespace.contains c

/-- The code points `str.lower` maps 32 positions higher: the uppercase
letters `A`–`Z` and `À`–`Þ` (0xC0–0xDE except the multiplication sign
0xD7). -/
def isUpperLatin (n : Nat) : Bool :=
  (65 ≤ n && n ≤ 90) || (192 ≤ n && n ≤ 222 && n != 215)

/-- Python's `str.lower`, modelled on the ASCII and Latin-1 ranges: the
uppercase letters map to their lowercase forms 32 code points higher;
every other character is unchanged. -/
def pyLower (c : Char) : Char :=
  if isUpperLatin c.toNat then Char.ofNat (c.toNat + 32) else c

/-- Removal of leading whitespace (the left half of Python's `str.strip`). -/
def lstrip (l : List Char) : List Char := l.dropWhile pyIsSpace

/-- Removal of trailing whitespace (the right half of Python's `str.strip`). -/
def rstrip : List Char → List Char
  | [] => []
  | c :: rest =>
    let r := rstrip rest
    if r.isEmpty && pyIsSpace c then [] else c :: r

/-- Python's `str.strip`: drop whitespace at both ends. -/
def pyStrip (l : List Char) : List Char := lstrip (rstrip l)

def pyStripStr (s : String) : String := ⟨pyStrip s.data⟩

/-- Worker for `collapseWs`; the flag records whether the previously
emitted character closed a whitespace run (so further whitespace of the
same run is skipped). -/
def collapseAux : Bool → List Char → List Char
  | _, [] => []
  | inRun, c :: rest =>
    if pyIsSpace c then
      if inRun then collapseAux true rest else ' ' :: collapseAux true rest
    else c :: collapseAux false rest

/-- The effect of `re.sub(r'\s+', ' ', ·)`: every maximal run of whitespace
characters is replaced by a single space. -/
def collapseWs (l : List Char) : List Char := collapseAux false l

/-- `l` starts with a non-whitespace character (or is empty). -/
def noLeadSpace : List Char → Bool
  | [] => true
  | c :: _ => !pyIsSpace c

/-- Canonical spacing: every whitespace character of the list is a plain
space and is immediately followed by a non-whitespace character (or ends
the list). `collapseWs` always produces such a list, and is the identity
on such lists. -/
def spacesSingle : List Char → Bool
  | [] => true
  | c :: rest => (!pyIsSpace c || (c == ' ' && noLeadSpace rest)) && spacesSingle rest

/-- The accent-replacement table of `normalize_text`, in the order the
Python dict iterates it. -/
def replacements : List (Char × Char) :=
  [('á', 'a'), ('é', 'e'), ('í', 'i'), ('ó', 'o'), ('ú', 'u'),
   ('ñ', 'n'), ('ü', 'u')]

/-- The sequence of `text.replace(old, new)` calls of `normalize_text`:
each single-character replacement is a character-wise map over the string. -/
def applyReplacements (l : List Char) : List Char :=
  replacements.foldl (fun t p => t.map (fun c => if c = p.1 then p.2 else c)) l

/-- The replacement sequence applied to a single character. -/
def substAll (c : Char) : Char :=
  replacements.foldl (fun a p => if a = p.1 then p.2 else a) c

def normalizeChars (l : List Char) : List Char :=
  lstrip (rstrip (collapseWs (applyReplacements (l.map pyLower))))

/-- `normalize_text` from `app.py`: empty input maps to the empty string;
otherwise lower-case, apply the accent replacements in sequence, collapse
whitespace runs to single spaces, and strip both ends. -/
def normalize_text (s : String) : String :=
  if s.data = [] then "" else ⟨normalizeChars s.data⟩

/-- The accent table read as a simultaneous character-wise substitution,
following the specification's wording (\x7bá→a, é→e, í→i, ó→o, ú→u, ñ→n,
ü→u\x7d). -/
def accentTable (c : Char) : Char :=
  if c = 'á' then 'a'
  else if c = 'é' then 'e'
  else if c = 'í' then 'i'
  else if c = 'ó' then 'o'
  else if c = 'ú' then 'u'
  else if c = 'ñ' then 'n'
  else if c = 'ü' then 'u'
  else c

/-- The specification's reading of the normalizer: lower-case each
character, substitute each character through the fixed accent table,
collapse whitespace runs, trim the ends. -/
def normalizeSpec (s : String) : String :=
  if s.data = [] then ""
  else ⟨lstrip (rstrip (collapseWs (s.data.map (fun c => accentTable (pyLower c)))))⟩

/-- The regex class `\w` (word characters), modelled on the ASCII and
Latin-1 ranges: ASCII letters, digits, underscore, and the Latin-1 letters
0xC0–0xFF minus the multiplication (0xD7) and division (0xF7) signs. -/
def isWordChar (c : Char) : Bool :=
  (97 ≤ c.toNat && c.toNat ≤ 122) || (65 ≤ c.toNat && c.toNat ≤ 90) ||
  (48 ≤ c.toNat && c.toNat ≤ 57) || c.toNat == 95 ||
  (192 ≤ c.toNat && c.toNat ≤ 255 && c.toNat != 215 && c.toNat != 247)

/-- Worker for `tokens`: `cur` holds the characters of the word-character
run currently being read, in reverse order. -/
def tokensAux (cur : List Char) : List Char → List (List Char)
  | [] => if cur = [] then [] else [cur.reverse]
  | c :: rest =>
    if isWordChar c then tokensAux (c :: cur) rest
    else if cur = [] then tokensAux [] rest
    else cur.reverse :: tokensAux [] rest

/-- `re.findall(r'\b\w+\b', ·)`: the maximal runs of word characters, in
order of appearance. -/
def tokens (l : List Char) : List (List Char) := tokensAux [] l

/-- The stop-word set of `extract_keywords`. -/
def stop_words : List String :=
  ["de", "la", "el", "en", "con", "para", "por", "un", "una", "y", "o",
   "del", "las", "los"]

/-- The list `keywords` computed inside `extract_keywords`: the tokens of
the normalized description that are longer than two characters and are not
stop-words, in order (with multiplicity). -/
def keywordList (d : String) : List String :=
  ((tokens (normalize_text d).data).map (fun t => String.mk t)).filter
    (fun w => 2 < w.length && !stop_words.contains w)

/-- The variant added for each keyword: trailing `s` is stripped when the
word ends in `s` and is longer than three characters (naive
singularization); otherwise an `s` is appended (naive pluralization). -/
def pluralVariant (w : String) : String :=
  if w.data.getLast? = some 's' && 3 < w.length then ⟨w.data.dropLast⟩
  else ⟨w.data ++ ['s']⟩

/-- `extract_keywords` from `app.py`. The Python function materialises the
set `extended_keywords` (the keywords together with their variants) and
returns its elements as a list in unspecified order; the model returns the
set itself. -/
def extract_keywords (d : String) : Finset String :=
  if d.data = [] then ∅
  else (keywordList d).toFinset ∪ ((keywordList d).map pluralVariant).toFinset

/-! ## The `/search-multi` request handler -/

/-- The observable outcome of the `/search-multi` handler, up to the hand-off
to the database driver: a 403, a 400 with the given error message in the
JSON body, or a parameterized SQL statement submitted to the driver with
its bound parameters (the code then serialises whatever rows the database
returns, which is outside the model). -/
inductive SearchOutcome where
  | forbidden : SearchOutcome
  | badRequest (msg : String) : SearchOutcome
  | dbQuery (sql : String) (ps : List String) : SearchOutcome
deriving DecidableEq

/-- `" OR ".join(...)`, Python's separator join. -/
def pyJoin (sep : String) : List String → String
  | [] => ""
  | [x] => x
  | x :: y :: rest => x ++ sep ++ pyJoin sep (y :: rest)

/-- The `like_clauses` fragment: one `Descri LIKE ?` placeholder predicate
per term, joined with `OR`. -/
def likeClauses (terms : List String) : String :=
  pyJoin " OR " (terms.map (fun _ => "Descri LIKE ?"))

/-- The driver parameters bound to the placeholders: each term wrapped in
`%`, in term order. -/
def searchParams (terms : List String) : List String :=
  terms.map (fun t => "%" ++ t ++ "%")

/-- The part of the `search_multi` f-string before the interpolated
`like_clauses`. -/
def sqlHead : String :=
  "\n                SELECT TOP 200 Codigo, Descri, PrecioFinal\n                FROM dbo.ConsStock\n                WHERE "

/-- The part of the `search_multi` f-string after the interpolated
`like_clauses`. -/
def sqlTail : String :=
  " AND PrecioFinal > 0\n                ORDER BY PrecioFinal ASC\n            "

/-- The SQL text built by `search_multi` (the exact f-string of `app.py`,
with `like_clauses` interpolated). -/
def searchSql (terms : List String) : String :=
  sqlHead ++ likeClauses terms ++ sqlTail

/-- `query_param.split(",")`: split on every comma, keeping empty pieces
(the empty string yields one empty piece). -/
def splitComma : List Char → List (List Char)
  | [] => [[]]
  | c :: rest =>
    if c = ',' then [] :: splitComma rest
    else
      match splitComma rest with
      | [] => [[c]]
      | g :: gs => (c :: g) :: gs

/-- `[t.strip() for t in query_param.split(",") if t.strip()]`. -/
def parseTerms (q : String) : List String :=
  ((splitComma q.data).map (fun t => String.mk (pyStrip t))).filter
    (fun t => t ≠ "")

/-- The `/search-multi` handler from `app.py`. `apiToken` is the value of
the `API_TOKEN` environment variable, `tokenArg` and `queryArg` the `token`
and `query` request parameters; each is `none` when absent. -/
def search_multi (apiToken tokenArg queryArg : Option String) : SearchOutcome :=
  if tokenArg ≠ apiToken then .forbidden
  else
    let qd := pyStripStr (queryArg.getD "")
    if qd = "" then .badRequest "Query parameter is required."
    else
      let terms := parseTerms qd
      if terms = [] then .badRequest "No valid terms provided."
      else .dbQuery (searchSql terms) (searchParams terms)

/-! ## The catalog synchronization pipeline -/

/-- A row of the source query's result set (`SELECT Codigo, Descri,
PrecioFinal FROM dbo.ConsStock WHERE PrecioFinal > 0 ORDER BY Codigo`).
The price is `none` when the column is NULL; its numeric value is kept
exact rather than floating-point. -/
structure SourceRow where
  codigo : String
  descri : String
  precioFinal : Option Int
deriving DecidableEq

/-- The enriched product dict built for each source row (the
`EnrichedCatalogEntry` of the specification). -/
structure EnrichedProduct where
  codigo : String
  descripcion : String
  descripcion_normalizada : String
  precio_final : Int
  keywords : Finset String
  updated_at : String
deriving DecidableEq

/-- The per-row enrichment step of `sync_catalog_to_supabase`
(`float(precio) if precio else 0` sends both NULL and 0 to 0). -/
def enrichProduct (now : String) (r : SourceRow) : EnrichedProduct :=
  { codigo := r.codigo
    descripcion := r.descri
    descripcion_normalizada := normalize_text r.descri
    precio_final := match r.precioFinal with
      | none => 0
      | some p => p
    keywords := extract_keywords r.descri
    updated_at := now }

/-- Worker for `batches1000`: `cur` holds the current batch in reverse
order and `room` how many more records fit into it (so `cur.length + room
= 1000` throughout). -/
def batchesAux : List EnrichedProduct → Nat → List EnrichedProduct →
    List (List EnrichedProduct)
  | cur, _, [] => if cur = [] then [] else [cur.reverse]
  | cur, 0, p :: rest => cur.reverse :: batchesAux [p] 999 rest
  | cur, room + 1, p :: rest => batchesAux (p :: cur) room rest

/-- `products[i:i+1000]` for `i in range(0, len(products), 1000)`: the list
cut into consecutive batches of 1000, the last batch possibly shorter. -/
def batches1000 (l : List EnrichedProduct) : List (List EnrichedProduct) :=
  batchesAux [] 1000 l

/-- The statuses `requests.post` may return that the pipeline counts as a
successful batch insert. -/
def isInsertSuccess (status : Nat) : Bool :=
  status == 200 || status == 201 || status == 204

/-- The statuses of the bulk delete that the pipeline does not log as an
error. -/
def isDeleteSuccess (status : Nat) : Bool :=
  status == 200 || status == 204

/-- The observable result of one run of the insert loop. -/
structure LoopOut where
  attempted : List (List EnrichedProduct)
  inserted : List (List EnrichedProduct)
  total : Nat
  ok : Bool
deriving DecidableEq

/-- The batch-insert loop of `sync_catalog_to_supabase`: POST each batch in
order; a success status accumulates the batch length into the running
total; a failure status returns immediately (later batches are never
posted, earlier batches stay inserted). `insertStatus i` is the HTTP
status the mirror store returns for the `i`-th POST. -/
def insertLoop (insertStatus : Nat → Nat) : Nat → List (List EnrichedProduct) → LoopOut
  | _, [] => ⟨[], [], 0, true⟩
  | i, b :: rest =>
    if isInsertSuccess (insertStatus i) then
      let r := insertLoop insertStatus (i + 1) rest
      ⟨b :: r.attempted, b :: r.inserted, b.length + r.total, r.ok⟩
    else ⟨[b], [], 0, false⟩

/-- The observable result of one run of the sync pipeline. -/
structure SyncOutcome where
  success : Bool
  deleteIssued : Bool
  deleteOk : Bool
  batchesAttempted : List (List EnrichedProduct)
  batchesInserted : List (List EnrichedProduct)
  totalInserted : Nat
deriving DecidableEq

/-- `sync_catalog_to_supabase` from `app.py`, as a function of its external
collaborators: whether the mirror store is configured, the rows the source
query returns, the timestamp, and the HTTP statuses of the delete and of
each batch insert. When unconfigured the pipeline is a no-op reporting
failure; otherwise the bulk delete is always issued (its status is only
logged) and the enriched products are inserted in batches of 1000 until
the first failing batch. -/
def sync_catalog_to_supabase (configured : Bool) (rows : List SourceRow)
    (now : String) (deleteStatus : Nat) (insertStatus : Nat → Nat) :
    SyncOutcome :=
  if !configured then ⟨false, false, false, [], [], 0⟩
  else
    let products := rows.map (enrichProduct now)
    let r := insertLoop insertStatus 0 (batches1000 products)
    ⟨r.ok, true, isDeleteSuccess deleteStatus, r.attempted, r.inserted, r.total⟩

/-! ## Character-level lemmas -/

theorem toNat_ofNat_small (n : Nat) (h : n < 55296) : (Char.ofNat n).toNat = n := by
  unfold Char.ofNat
  rw [dif_pos (Or.inl h)]
  rfl

theorem isUpperLatin_iff (n : Nat) :
    isUpperLatin n = true ↔ (65 ≤ n ∧ n ≤ 90) ∨ (192 ≤ n ∧ n ≤ 222 ∧ n ≠ 215) := by
  simp only [isUpperLatin, Bool.or_eq_true, Bool.and_eq_true, decide_eq_true_eq,
    bne_iff_ne, ne_eq, and_assoc]

theorem pyLower_fix (c : Char) (h : isUpperLatin c.toNat = false) : pyLower c = c := by
  unfold pyLower
  rw [h]
  rfl

theorem pyLower_toNat_of_upper (c : Char) (h : isUpperLatin c.toNat = true) :
    (pyLower c).toNat = c.toNat + 32 := by
  unfold pyLower
  rw [h]
  simp only [if_true]
  have hb : c.toNat + 32 < 55296 := by
    rcases (isUpperLatin_iff c.toNat).1 h with h' | h' <;> omega
  exact toNat_ofNat_small _ hb

theorem pyLower_idem (c : Char) : pyLower (pyLower c) = pyLower c := by
  by_cases h : isUpperLatin c.toNat = true
  · have ht : (pyLower c).toNat = c.toNat + 32 := pyLower_toNat_of_upper c h
    apply pyLower_fix
    rw [ht]
    rcases (isUpperLatin_iff c.toNat).1 h with h' | h' <;>
      · rw [Bool.eq_false_iff]
        intro hcon
        rcases (isUpperLatin_iff _).1 hcon with h'' | h'' <;> omega
  · rw [pyLower_fix c (Bool.eq_false_iff.2 h)]
    exact pyLower_fix c (Bool.eq_false_iff.2 h)

theorem substAll_eq_accentTable (c : Char) : substAll c = accentTable c := by
  by_cases h1 : c = 'á'
  · subst h1; decide
  by_cases h2 : c = 'é'
  · subst h2; decide
  by_cases h3 : c = 'í'
  · subst h3; decide
  by_cases h4 : c = 'ó'
  · subst h4; decide
  by_cases h5 : c = 'ú'
  · subst h5; decide
  by_cases h6 : c = 'ñ'
  · subst h6; decide
  by_cases h7 : c = 'ü'
  · subst h7; decide
  simp [substAll, accentTable, replacements, h1, h2, h3, h4, h5, h6, h7]

theorem accentTable_eq_self (c : Char) (h1 : c ≠ 'á') (h2 : c ≠ 'é') (h3 : c ≠ 'í')
    (h4 : c ≠ 'ó') (h5 : c ≠ 'ú') (h6 : c ≠ 'ñ') (h7 : c ≠ 'ü') :
    accentTable c = c := by
  simp [accentTable, h1, h2, h3, h4, h5, h6, h7]

/-- The key pointwise fact for idempotence: a character that has gone
through lower-casing and accent substitution is a fixed point of both. -/
theorem accent_after_lower (d : Char) :
    pyLower (accentTable (pyLower d)) = accentTable (pyLower d) ∧
    accentTable (accentTable (pyLower d)) = accentTable (pyLower d) := by
  by_cases h1 : pyLower d = 'á'
  · rw [h1]; exact ⟨by decide, by decide⟩
  by_cases h2 : pyLower d = 'é'
  · rw [h2]; exact ⟨by decide, by decide⟩
  by_cases h3 : pyLower d = 'í'
  · rw [h3]; exact ⟨by decide, by decide⟩
  by_cases h4 : pyLower d = 'ó'
  · rw [h4]; exact ⟨by decide, by decide⟩
  by_cases h5 : pyLower d = 'ú'
  · rw [h5]; exact ⟨by decide, by decide⟩
  by_cases h6 : pyLower d = 'ñ'
  · rw [h6]; exact ⟨by decide, by decide⟩
  by_cases h7 : pyLower d = 'ü'
  · rw [h7]; exact ⟨by decide, by decide⟩
  have ha : accentTable (pyLower d) = pyLower d :=
    accentTable_eq_self _ h1 h2 h3 h4 h5 h6 h7
  rw [ha, pyLower_idem, ha]
  exact ⟨rfl, rfl⟩

theorem foldl_replace_cons (R : List (Char × Char)) (c : Char) (l : List Char) :
    R.foldl (fun t p => t.map (fun x => if x = p.1 then p.2 else x)) (c :: l) =
      R.foldl (fun a p => if a = p.1 then p.2 else a) c ::
        R.foldl (fun t p => t.map (fun x => if x = p.1 then p.2 else x)) l := by
  induction R generalizing c l with
  | nil => rfl
  | cons p R ih =>
    simp only [List.foldl_cons, List.map_cons]
    exact ih _ _

theorem foldl_replace_nil (R : List (Char × Char)) :
    R.foldl (fun t p => t.map (fun x => if x = p.1 then p.2 else x)) [] = [] := by
  induction R with
  | nil => rfl
  | cons p R ih => simpa using ih

theorem applyReplacements_eq_map (l : List Char) :
    applyReplacements l = l.map substAll := by
  induction l with
  | nil => exact foldl_replace_nil replacements
  | cons c l ih =>
    show replacements.foldl _ (c :: l) = _
    rw [foldl_replace_cons]
    simp only [List.map_cons]
    exact congrArg _ ih

theorem applyReplacements_eq_map_accent (l : List Char) :
    applyReplacements l = l.map accentTable := by
  rw [applyReplacements_eq_map]
  exact List.map_congr_left fun c _ => substAll_eq_accentTable c

/-! ## Whitespace lemmas -/

theorem noLeadSpace_collapseAux_true (l : List Char) :
    noLeadSpace (collapseAux true l) = true := by
  induction l with
  | nil => rfl
  | cons c rest ih =>
    by_cases h : pyIsSpace c
    · simpa [collapseAux, h] using ih
    · simp [collapseAux, h, noLeadSpace]

theorem spacesSingle_collapseAux (l : List Char) :
    ∀ b, spacesSingle (collapseAux b l) = true := by
  induction l with
  | nil => intro b; rfl
  | cons c rest ih =>
    intro b
    by_cases h : pyIsSpace c
    · cases b with
      | true => simpa [collapseAux, h] using ih true
      | false =>
        simp only [collapseAux, h, if_true, Bool.false_eq_true, if_false]
        simp [spacesSingle, noLeadSpace_collapseAux_true, ih true]
    · simp [collapseAux, h, spacesSingle, ih false]

theorem collapseAux_true_eq_false (l : List Char) (h : noLeadSpace l = true) :
    collapseAux true l = collapseAux false l := by
  cases l with
  | nil => rfl
  | cons c rest =>
    have hc : pyIsSpace c = false := by
      simpa [noLeadSpace] using h
    simp [collapseAux, hc]

theorem collapseAux_eq_self (l : List Char) (h : spacesSingle l = true) :
    collapseAux false l = l := by
  induction l with
  | nil => rfl
  | cons c rest ih =>
    have h1 : (!pyIsSpace c || (c == ' ' && noLeadSpace rest)) = true := by
      simpa [spacesSingle, Bool.and_eq_true] using And.left (by simpa [spacesSingle] using h)
    have h2 : spacesSingle rest = true := by
      simpa [spacesSingle] using And.right (by simpa [spacesSingle] using h)
    by_cases hc : pyIsSpace c
    · have h3 : c = ' ' ∧ noLeadSpace rest = true := by
        simp [hc] at h1
        exact ⟨h1.1, h1.2⟩
      simp only [collapseAux, hc, if_true, Bool.false_eq_true, if_false]
      rw [collapseAux_true_eq_false rest h3.2, ih h2, h3.1]
    · simp [collapseAux, hc, ih h2]

theorem mem_collapseAux (l : List Char) :
    ∀ b c, c ∈ collapseAux b l → c = ' ' ∨ c ∈ l := by
  induction l with
  | nil => intro b c hc; simp [collapseAux] at hc
  | cons d rest ih =>
    intro b c hc
    by_cases h : pyIsSpace d
    · cases b with
      | true =>
        simp only [collapseAux, h, if_true] at hc
        rcases ih true c hc with h' | h'
        · exact Or.inl h'
        · exact Or.inr (List.mem_cons_of_mem _ h')
      | false =>
        simp only [collapseAux, h, if_true, Bool.false_eq_true, if_false,
          List.mem_cons] at hc
        rcases hc with h' | h'
        · exact Or.inl h'
        · rcases ih true c h' with h'' | h''
          · exact Or.inl h''
          · exact Or.inr (List.mem_cons_of_mem _ h'')
    · simp only [collapseAux, h, Bool.false_eq_true, if_false, List.mem_cons] at hc
      rcases hc with h' | h'
      · exact Or.inr (h' ▸ List.mem_cons_self _ _)
      · rcases ih false c h' with h'' | h''
        · exact Or.inl h''
        · exact Or.inr (List.mem_cons_of_mem _ h'')

theorem spacesSingle_dropWhile (p : Char → Bool) (l : List Char)
    (h : spacesSingle l = true) : spacesSingle (l.dropWhile p) = true := by
  induction l with
  | nil => exact h
  | cons c rest ih =>
    have h2 : spacesSingle rest = true := by
      simpa [spacesSingle] using And.right (by simpa [spacesSingle] using h)
    by_cases hp : p c
    · simpa [List.dropWhile, hp] using ih h2
    · simpa [List.dropWhile, hp] using h

theorem noLeadSpace_rstrip (l : List Char) (h : noLeadSpace l = true) :
    noLeadSpace (rstrip l) = true := by
  cases l with
  | nil => rfl
  | cons c rest =>
    show noLeadSpace (if (rstrip rest).isEmpty && pyIsSpace c then [] else c :: rstrip rest) = true
    by_cases hb : (rstrip rest).isEmpty && pyIsSpace c
    · simp [hb, noLeadSpace]
    · simp only [hb, Bool.false_eq_true, if_false]
      simpa [noLeadSpace] using h

theorem spacesSingle_rstrip (l : List Char) (h : spacesSingle l = true) :
    spacesSingle (rstrip l) = true := by
  induction l with
  | nil => rfl
  | cons c rest ih =>
    have h1 : (!pyIsSpace c || (c == ' ' && noLeadSpace rest)) = true := by
      simpa [spacesSingle, Bool.and_eq_true] using And.left (by simpa [spacesSingle] using h)
    have h2 : spacesSingle rest = true := by
      simpa [spacesSingle] using And.right (by simpa [spacesSingle] using h)
    show spacesSingle (if (rstrip rest).isEmpty && pyIsSpace c then [] else c :: rstrip rest) = true
    by_cases hb : (rstrip rest).isEmpty && pyIsSpace c
    · simp [hb, spacesSingle]
    · simp only [hb, Bool.false_eq_true, if_false, spacesSingle, Bool.and_eq_true]
      refine ⟨?_, ih h2⟩
      rcases (by simpa using h1 :
          pyIsSpace c = false ∨ (c = ' ' ∧ noLeadSpace rest = true)) with h' | h'
      · simp [h']
      · simp [h'.1, noLeadSpace_rstrip rest h'.2]

theorem rstrip_cons (c : Char) (rest : List Char) :
    rstrip (c :: rest) =
      if (rstrip rest).isEmpty && pyIsSpace c then [] else c :: rstrip rest := rfl

theorem rstrip_idem (l : List Char) : rstrip (rstrip l) = rstrip l := by
  induction l with
  | nil => rfl
  | cons c rest ih =>
    rw [rstrip_cons]
    by_cases hb : ((rstrip rest).isEmpty && pyIsSpace c) = true
    · simp [hb, rstrip]
    · rw [if_neg hb, rstrip_cons, ih, if_neg hb]

theorem rstrip_dropWhile (p : Char → Bool) (l : List Char) (h : rstrip l = l) :
    rstrip (l.dropWhile p) = l.dropWhile p := by
  induction l with
  | nil => rfl
  | cons c rest ih =>
    by_cases hp : p c
    · have hr : rstrip rest = rest := by
        rw [rstrip_cons] at h
        by_cases hb : ((rstrip rest).isEmpty && pyIsSpace c) = true
        · rw [if_pos hb] at h
          exact absurd h (by simp)
        · rw [if_neg hb] at h
          injection h
      simpa [List.dropWhile, hp] using ih hr
    · simpa [List.dropWhile, hp] using h

theorem dropWhile_idem (p : Char → Bool) (l : List Char) :
    (l.dropWhile p).dropWhile p = l.dropWhile p := by
  induction l with
  | nil => rfl
  | cons c rest ih =>
    by_cases hp : p c
    · simpa [List.dropWhile, hp] using ih
    · simp [List.dropWhile, hp]

theorem rstrip_sublist (l : List Char) : (rstrip l).Sublist l := by
  induction l with
  | nil => exact List.Sublist.refl _
  | cons c rest ih =>
    rw [rstrip_cons]
    by_cases hb : ((rstrip rest).isEmpty && pyIsSpace c) = true
    · simp [hb]
    · rw [if_neg hb]
      exact List.Sublist.cons₂ c ih

theorem mem_of_mem_pyStrip (c : Char) (l : List Char) (h : c ∈ pyStrip l) : c ∈ l := by
  have h1 : c ∈ rstrip l :=
    (List.dropWhile_sublist pyIsSpace).mem h
  exact (rstrip_sublist l).mem h1
theorem normalizeChars_normalizeChars (l : List Char) :
    normalizeChars (normalizeChars l) = normalizeChars l := by
  have hu : applyReplacements (l.map pyLower) =
      l.map (fun c => accentTable (pyLower c)) := by
    rw [applyReplacements_eq_map_accent, List.map_map]
    rfl
  set t := normalizeChars l with ht
  have htdef : t = lstrip (rstrip (collapseWs (applyReplacements (l.map pyLower)))) := rfl
  have hchar : ∀ c ∈ t, pyLower c = c ∧ accentTable c = c := by
    intro c hc
    have h1 : c ∈ collapseWs (applyReplacements (l.map pyLower)) := by
      refine mem_of_mem_pyStrip c _ ?_
      show c ∈ lstrip (rstrip (collapseWs (applyReplacements (l.map pyLower))))
      exact htdef ▸ hc
    rcases mem_collapseAux _ false c h1 with h2 | h2
    · subst h2
      exact ⟨by decide, by decide⟩
    · rw [hu] at h2
      rcases List.mem_map.1 h2 with ⟨d, _, rfl⟩
      exact accent_after_lower d
  have hmap1 : t.map pyLower = t :=
    (List.map_congr_left fun c hc => (hchar c hc).1).trans (List.map_id t)
  have hmap2 : applyReplacements t = t := by
    rw [applyReplacements_eq_map_accent]
    exact (List.map_congr_left fun c hc => (hchar c hc).2).trans (List.map_id t)
  have hss : spacesSingle t = true := by
    rw [htdef]
    exact spacesSingle_dropWhile _ _ (spacesSingle_rstrip _ (spacesSingle_collapseAux _ false))
  have hcol : collapseAux false t = t := collapseAux_eq_self t hss
  have hr : rstrip t = t := by
    rw [htdef]
    exact rstrip_dropWhile _ _ (rstrip_idem _)
  have hl : t.dropWhile pyIsSpace = t := by
    rw [htdef]
    exact dropWhile_idem _ _
  show lstrip (rstrip (collapseWs (applyReplacements (t.map pyLower)))) = t
  rw [hmap1, hmap2]
  show lstrip (rstrip (collapseAux false t)) = t
  rw [hcol, hr]
  exact hl

theorem normalize_text_data (s : String) :
    (normalize_text s).data = normalizeChars s.data := by
  by_cases h : s.data = []
  · rw [normalize_text, if_pos h, h]
    rfl
  · rw [normalize_text, if_neg h]

/-- C9: `normalize_text` is idempotent — a second application of the
normalizer leaves its output (in particular every enriched entry's
`descripcion_normalizada`) unchanged. -/
theorem normalize_text_idempotent (s : String) :
    normalize_text (normalize_text s) = normalize_text s := by
  apply String.ext
  rw [normalize_text_data, normalize_text_data]
  exact normalizeChars_normalizeChars s.data

/-- C4: `normalize_text` agrees everywhere with the specification's reading
(empty on empty input; otherwise lower-case, substitute each character
through the fixed accent table — no other folding —, collapse every
whitespace run to a single space, and trim the ends), and on the
specification's concrete examples. -/
theorem normalize_text_matches_spec :
    (∀ s, normalize_text s = normalizeSpec s) ∧
    normalize_text "CÓDIGO  Úñico" = "codigo unico" ∧
    normalize_text "" = "" := by
  refine ⟨fun s => ?_, by decide, by decide⟩
  rw [normalize_text, normalizeSpec]
  by_cases h : s.data = []
  · rw [if_pos h, if_pos h]
  · rw [if_neg h, if_neg h]
    unfold normalizeChars
    rw [applyReplacements_eq_map_accent, List.map_map]
    rfl

/-! ## Keyword extraction -/

/-- C5: membership in the keyword set is exactly: being a surviving token
of the normalized description (length > 2, not a stop-word) or the
singular/plural variant of one; and the specification's concrete example
holds (`tornillo`, `tornillos`, `acero`, `aceros` in; `de` out). -/
theorem extract_keywords_characterization :
    (∀ d w, w ∈ extract_keywords d ↔
      (w ∈ keywordList d ∨ ∃ v ∈ keywordList d, w = pluralVariant v)) ∧
    "tornillo" ∈ extract_keywords "Tornillos de Acero" ∧
    "tornillos" ∈ extract_keywords "Tornillos de Acero" ∧
    "acero" ∈ extract_keywords "Tornillos de Acero" ∧
    "aceros" ∈ extract_keywords "Tornillos de Acero" ∧
    "de" ∉ extract_keywords "Tornillos de Acero" := by
  refine ⟨fun d w => ?_, by decide, by decide, by decide, by decide, by decide⟩
  by_cases h : d.data = []
  · have hd : d = "" := by
      cases d with
      | mk l => exact congrArg String.mk h
    subst hd
    simp only [extract_keywords]
    rw [if_pos (by decide)]
    have hk : keywordList "" = [] := by decide
    simp [hk]
  · simp only [extract_keywords]
    rw [if_neg h]
    simp only [Finset.mem_union, List.mem_toFinset, List.mem_map]
    constructor
    · rintro (h' | ⟨v, hv, rfl⟩)
      · exact Or.inl h'
      · exact Or.inr ⟨v, hv, rfl⟩
    · rintro (h' | ⟨v, hv, rfl⟩)
      · exact Or.inl h'
      · exact Or.inr ⟨v, hv, rfl⟩

/-- C10: the keyword set has at most twice as many elements as there are
surviving tokens (length > 2, not stop-words, counted with multiplicity)
in the normalized description. -/
theorem extract_keywords_card_le (d : String) :
    (extract_keywords d).card ≤ 2 * (keywordList d).length := by
  by_cases h : d.data = []
  · simp [extract_keywords, h]
  · simp only [extract_keywords]
    rw [if_neg h]
    calc ((keywordList d).toFinset ∪ ((keywordList d).map pluralVariant).toFinset).card
        ≤ (keywordList d).toFinset.card + ((keywordList d).map pluralVariant).toFinset.card :=
          Finset.card_union_le _ _
      _ ≤ (keywordList d).length + ((keywordList d).map pluralVariant).length :=
          Nat.add_le_add (List.toFinset_card_le _) (List.toFinset_card_le _)
      _ = 2 * (keywordList d).length := by
          rw [List.length_map]
          omega

/-! ## Search query construction -/

theorem count_q_pyJoin (terms : List String) :
    List.count '?' (pyJoin " OR " (terms.map fun _ => "Descri LIKE ?")).data =
      terms.length := by
  induction terms with
  | nil => rfl
  | cons t rest ih =>
    cases rest with
    | nil =>
      show List.count '?' "Descri LIKE ?".data = 1
      decide
    | cons y r =>
      show List.count '?'
        ("Descri LIKE ?" ++ " OR " ++
          pyJoin " OR " ((y :: r).map fun _ => "Descri LIKE ?")).data = (t :: y :: r).length
      rw [String.data_append, String.data_append, List.count_append, List.count_append, ih]
      have h1 : List.count '?' "Descri LIKE ?".data = 1 := by decide
      have h2 : List.count '?' " OR ".data = 0 := by decide
      rw [h1, h2]
      simp only [List.length_cons]
      omega

theorem likeClauses_eq_replicate (terms : List String) :
    likeClauses terms = pyJoin " OR " (List.replicate terms.length "Descri LIKE ?") := by
  unfold likeClauses
  rw [List.map_const']

theorem parseTerms_empty : parseTerms "" = [] := by decide

/-- C1: for a non-empty list of `N` terms the handler's SQL text is the
fixed SELECT (TOP 200, `PrecioFinal > 0` conjunct, ascending price order)
whose WHERE clause is `N` `Descri LIKE ?` placeholder predicates joined by
`OR`; it contains exactly `N` placeholder characters; the bound parameters
are exactly the terms wrapped in `%`; the SQL text depends only on the
number of terms, never on their content (no term is concatenated into the
SQL); and the handler submits precisely this statement and parameter list
for any request that parses to these terms. -/
theorem search_query_construction (terms : List String) (h : terms ≠ []) :
    searchSql terms =
      sqlHead ++ pyJoin " OR " (List.replicate terms.length "Descri LIKE ?") ++ sqlTail ∧
    List.count '?' (searchSql terms).data = terms.length ∧
    searchParams terms = terms.map (fun t => "%" ++ t ++ "%") ∧
    (∀ ts : List String, ts.length = terms.length → searchSql ts = searchSql terms) ∧
    (∀ apiTok q, parseTerms (pyStripStr q) = terms →
      search_multi apiTok apiTok (some q) =
        .dbQuery (searchSql terms) (searchParams terms)) := by
  refine ⟨?_, ?_, rfl, ?_, ?_⟩
  · rw [searchSql, likeClauses_eq_replicate]
  · rw [searchSql, String.data_append, String.data_append, List.count_append,
      List.count_append]
    have h1 : List.count '?' sqlHead.data = 0 := by decide
    have h2 : List.count '?' sqlTail.data = 0 := by decide
    rw [h1, h2]
    unfold likeClauses
    rw [count_q_pyJoin]
    omega
  · intro ts hlen
    rw [searchSql, searchSql, likeClauses_eq_replicate, likeClauses_eq_replicate, hlen]
  · intro apiTok q hq
    have hqd : ¬ pyStripStr q = "" := by
      intro he
      apply h
      rw [← hq, he]
      exact parseTerms_empty
    show (if (apiTok : Option String) ≠ apiTok then SearchOutcome.forbidden
      else
        if pyStripStr q = "" then .badRequest "Query parameter is required."
        else
          if parseTerms (pyStripStr q) = [] then .badRequest "No valid terms provided."
          else .dbQuery (searchSql (parseTerms (pyStripStr q)))
            (searchParams (parseTerms (pyStripStr q)))) = _
    rw [if_neg (by simp), if_neg hqd, hq, if_neg h]

/-- Witness for C1 at the specification's example `query="martillo,clavo"`. -/
theorem search_query_construction_witness :
    List.count '?' (searchSql ["martillo", "clavo"]).data = 2 ∧
    searchParams ["martillo", "clavo"] = ["%martillo%", "%clavo%"] ∧
    search_multi (some "tok") (some "tok") (some "martillo,clavo") =
      .dbQuery (searchSql ["martillo", "clavo"]) (searchParams ["martillo", "clavo"]) :=
  ⟨(search_query_construction ["martillo", "clavo"] (by decide)).2.1,
   by decide,
   (search_query_construction ["martillo", "clavo"] (by decide)).2.2.2.2
     (some "tok") "martillo,clavo" (by decide)⟩

/-- C3: the token gate passes exactly when the `token` parameter equals the
`API_TOKEN` environment value (as possibly-absent values); in particular
with no `API_TOKEN` configured and no `token` parameter the request is not
rejected with 403 — it proceeds to query validation. -/
theorem search_auth_token_equality (apiTok tokArg queryArg : Option String) :
    (search_multi apiTok tokArg queryArg = .forbidden ↔ tokArg ≠ apiTok) ∧
    search_multi none none none = .badRequest "Query parameter is required." := by
  refine ⟨?_, by decide⟩
  by_cases h : tokArg = apiTok
  · rw [search_multi, if_neg (by simp [h])]
    constructor
    · intro hf
      exfalso
      have hf' : (if pyStripStr (queryArg.getD "") = "" then
          SearchOutcome.badRequest "Query parameter is required."
        else if parseTerms (pyStripStr (queryArg.getD "")) = [] then
          SearchOutcome.badRequest "No valid terms provided."
        else SearchOutcome.dbQuery (searchSql (parseTerms (pyStripStr (queryArg.getD ""))))
          (searchParams (parseTerms (pyStripStr (queryArg.getD ""))))) =
          SearchOutcome.forbidden := hf
      split_ifs at hf'
    · intro hne
      exact absurd h hne
  · rw [search_multi, if_pos h]
    exact ⟨fun _ => h, fun _ => rfl⟩

/-- C6 (amended): with the token gate passed, a missing-or-blank `query`
yields a 400 whose error message is `Query parameter is required.` (with
trailing period), and a non-blank `query` whose comma-split leaves no
non-empty trimmed term yields a 400 whose error message is
`No valid terms provided.`; in both cases the outcome is a `badRequest`,
so no `dbQuery` — no SQL statement or database connection — is produced. -/
theorem search_validation (apiTok tokArg queryArg : Option String)
    (hauth : tokArg = apiTok) :
    (pyStripStr (queryArg.getD "") = "" →
      search_multi apiTok tokArg queryArg = .badRequest "Query parameter is required.") ∧
    (pyStripStr (queryArg.getD "") ≠ "" →
      parseTerms (pyStripStr (queryArg.getD "")) = [] →
      search_multi apiTok tokArg queryArg = .badRequest "No valid terms provided.") := by
  subst hauth
  constructor
  · intro hblank
    show (if (tokArg : Option String) ≠ tokArg then SearchOutcome.forbidden
      else
        if pyStripStr (queryArg.getD "") = "" then .badRequest "Query parameter is required."
        else
          if parseTerms (pyStripStr (queryArg.getD "")) = [] then
            .badRequest "No valid terms provided."
          else .dbQuery (searchSql (parseTerms (pyStripStr (queryArg.getD ""))))
            (searchParams (parseTerms (pyStripStr (queryArg.getD ""))))) = _
    rw [if_neg (by simp), if_pos hblank]
  · intro hblank hterms
    show (if (tokArg : Option String) ≠ tokArg then SearchOutcome.forbidden
      else
        if pyStripStr (queryArg.getD "") = "" then .badRequest "Query parameter is required."
        else
          if parseTerms (pyStripStr (queryArg.getD "")) = [] then
            .badRequest "No valid terms provided."
          else .dbQuery (searchSql (parseTerms (pyStripStr (queryArg.getD ""))))
            (searchParams (parseTerms (pyStripStr (queryArg.getD ""))))) = _
    rw [if_neg (by simp), if_neg hblank, if_pos hterms]

/-- Witness for C6 (amended): a missing `query` and the all-blank query
`","` produce the two 400 responses. -/
theorem search_validation_witness :
    search_multi none none none = .badRequest "Query parameter is required." ∧
    search_multi none none (some " , ") = .badRequest "No valid terms provided." :=
  ⟨(search_validation none none none rfl).1 (by decide),
   (search_validation none none (some " , ") rfl).2 (by decide) (by decide)⟩

/-- Counterexample to C6 as stated: the error bodies carry a trailing
period, so the response to a missing `query` is not the literal
`Query parameter is required` claimed. -/
theorem search_validation_counterexample :
    search_multi none none none ≠ .badRequest "Query parameter is required" ∧
    search_multi none none none = .badRequest "Query parameter is required." := by
  exact ⟨by decide, by decide⟩

/-! ## Sync pipeline -/

theorem batchesAux_flatten (l : List EnrichedProduct) :
    ∀ cur room, (batchesAux cur room l).flatten = cur.reverse ++ l := by
  induction l with
  | nil =>
    intro cur room
    by_cases h : cur = ([] : List EnrichedProduct)
    · simp [batchesAux, h]
    · simp [batchesAux, h]
  | cons p rest ih =>
    intro cur room
    cases room with
    | zero =>
      show (cur.reverse :: batchesAux [p] 999 rest).flatten = _
      rw [List.flatten_cons, ih [p] 999]
      simp
    | succ room =>
      show (batchesAux (p :: cur) room rest).flatten = _
      rw [ih (p :: cur) room]
      simp

theorem batches1000_flatten (l : List EnrichedProduct) :
    (batches1000 l).flatten = l :=
  batchesAux_flatten l [] 1000

theorem batchesAux_sizes (l : List EnrichedProduct) :
    ∀ cur room, cur.length + room = 1000 →
      ∀ b ∈ batchesAux cur room l, b ≠ [] ∧ b.length ≤ 1000 := by
  induction l with
  | nil =>
    intro cur room hinv b hb
    by_cases h : cur = ([] : List EnrichedProduct)
    · simp [batchesAux, h] at hb
    · simp only [batchesAux, h, if_false, List.mem_singleton] at hb
      subst hb
      constructor
      · simpa using h
      · rw [List.length_reverse]
        omega
  | cons p rest ih =>
    intro cur room hinv b hb
    cases room with
    | zero =>
      rcases (by simpa [batchesAux] using hb :
          b = cur.reverse ∨ b ∈ batchesAux [p] 999 rest) with h' | h'
      · subst h'
        constructor
        · intro hc
          have : cur.length = 0 := by
            simpa using congrArg List.length hc
          omega
        · rw [List.length_reverse]
          omega
      · exact ih [p] 999 (by simp) b h'
    | succ room =>
      exact ih (p :: cur) room (by simp only [List.length_cons]; omega) b
        (by simpa [batchesAux] using hb)

theorem batchesAux_ne_nil (l : List EnrichedProduct) :
    ∀ cur room, cur ≠ [] → batchesAux cur room l ≠ [] := by
  induction l with
  | nil =>
    intro cur room h
    simp [batchesAux, h]
  | cons p rest ih =>
    intro cur room h
    cases room with
    | zero => simp [batchesAux]
    | succ room =>
      show batchesAux (p :: cur) room rest ≠ []
      exact ih (p :: cur) room (by simp)

theorem batchesAux_dropLast_sizes (l : List EnrichedProduct) :
    ∀ cur room, cur.length + room = 1000 →
      ∀ b ∈ (batchesAux cur room l).dropLast, b.length = 1000 := by
  induction l with
  | nil =>
    intro cur room hinv b hb
    by_cases h : cur = ([] : List EnrichedProduct)
    · simp [batchesAux, h] at hb
    · simp [batchesAux, h] at hb
  | cons p rest ih =>
    intro cur room hinv b hb
    cases room with
    | zero =>
      have hne : batchesAux [p] 999 rest ≠ [] := batchesAux_ne_nil rest [p] 999 (by simp)
      rw [show batchesAux cur 0 (p :: rest) = cur.reverse :: batchesAux [p] 999 rest from rfl,
        List.dropLast_cons_of_ne_nil hne] at hb
      rcases List.mem_cons.1 hb with h' | h'
      · subst h'
        rw [List.length_reverse]
        omega
      · exact ih [p] 999 (by simp) b h'
    | succ room =>
      exact ih (p :: cur) room (by simp only [List.length_cons]; omega) b
        (by simpa [batchesAux] using hb)

theorem insertLoop_cons (st : Nat → Nat) (i : Nat) (b : List EnrichedProduct)
    (rest : List (List EnrichedProduct)) :
    insertLoop st i (b :: rest) =
      if isInsertSuccess (st i) then
        ⟨b :: (insertLoop st (i + 1) rest).attempted,
         b :: (insertLoop st (i + 1) rest).inserted,
         b.length + (insertLoop st (i + 1) rest).total,
         (insertLoop st (i + 1) rest).ok⟩
      else ⟨[b], [], 0, false⟩ := by
  show (if isInsertSuccess (st i) then
      let r := insertLoop st (i + 1) rest
      LoopOut.mk (b :: r.attempted) (b :: r.inserted) (b.length + r.total) r.ok
    else ⟨[b], [], 0, false⟩) = _
  by_cases h : isInsertSuccess (st i) <;> simp [h]

theorem insertLoop_fail (st : Nat → Nat) (bs : List (List EnrichedProduct)) :
    ∀ i j, j < bs.length →
      (∀ k, k < j → isInsertSuccess (st (i + k)) = true) →
      isInsertSuccess (st (i + j)) = false →
      (insertLoop st i bs).ok = false ∧
      (insertLoop st i bs).attempted = bs.take (j + 1) ∧
      (insertLoop st i bs).inserted = bs.take j := by
  induction bs with
  | nil =>
    intro i j hj _ _
    exact absurd hj (by simp)
  | cons b rest ih =>
    intro i j hj hprev hfail
    cases j with
    | zero =>
      have hf : isInsertSuccess (st i) = false := by simpa using hfail
      rw [insertLoop_cons, if_neg (by simp [hf])]
      exact ⟨rfl, by simp, by simp⟩
    | succ j =>
      have hs : isInsertSuccess (st i) = true := by
        simpa using hprev 0 (Nat.succ_pos j)
      have ihr := ih (i + 1) j (by simpa using Nat.lt_of_succ_lt_succ hj)
        (fun k hk => by
          have := hprev (k + 1) (Nat.succ_lt_succ hk)
          simpa [Nat.add_assoc, Nat.add_comm 1 k] using this)
        (by simpa [Nat.add_assoc, Nat.add_comm 1 j] using hfail)
      rw [insertLoop_cons, if_pos (by simp [hs])]
      refine ⟨ihr.1, ?_, ?_⟩
      · show b :: (insertLoop st (i + 1) rest).attempted = List.take (j + 1 + 1) (b :: rest)
        rw [List.take_succ_cons, ihr.2.1]
      · show b :: (insertLoop st (i + 1) rest).inserted = List.take (j + 1) (b :: rest)
        rw [List.take_succ_cons, ihr.2.2]

theorem sync_configured_eq (rows : List SourceRow) (now : String) (dSt : Nat)
    (st : Nat → Nat) :
    sync_catalog_to_supabase true rows now dSt st =
      ⟨(insertLoop st 0 (batches1000 (rows.map (enrichProduct now)))).ok, true,
       isDeleteSuccess dSt,
       (insertLoop st 0 (batches1000 (rows.map (enrichProduct now)))).attempted,
       (insertLoop st 0 (batches1000 (rows.map (enrichProduct now)))).inserted,
       (insertLoop st 0 (batches1000 (rows.map (enrichProduct now)))).total⟩ := rfl

/-- C2: the enriched products are cut into consecutive batches of 1000
(their concatenation is the product list, every batch is non-empty with at
most 1000 records, and every batch except possibly the last has exactly
1000); and when the `j`-th POST is the first to return a non-success
status, the pipeline reports failure, has attempted only batches
`0..j`, and the `j` earlier batches remain inserted (no rollback). -/
theorem sync_batching_and_abort (rows : List SourceRow) (now : String)
    (dSt : Nat) (st : Nat → Nat) (j : Nat)
    (hj : j < (batches1000 (rows.map (enrichProduct now))).length)
    (hprev : ∀ k, k < j → isInsertSuccess (st k) = true)
    (hfail : isInsertSuccess (st j) = false) :
    (batches1000 (rows.map (enrichProduct now))).flatten = rows.map (enrichProduct now) ∧
    (∀ b ∈ batches1000 (rows.map (enrichProduct now)), b ≠ [] ∧ b.length ≤ 1000) ∧
    (∀ b ∈ (batches1000 (rows.map (enrichProduct now))).dropLast, b.length = 1000) ∧
    (sync_catalog_to_supabase true rows now dSt st).success = false ∧
    (sync_catalog_to_supabase true rows now dSt st).batchesAttempted =
      (batches1000 (rows.map (enrichProduct now))).take (j + 1) ∧
    (sync_catalog_to_supabase true rows now dSt st).batchesInserted =
      (batches1000 (rows.map (enrichProduct now))).take j := by
  have hloop := insertLoop_fail st (batches1000 (rows.map (enrichProduct now))) 0 j hj
    (fun k hk => by simpa using hprev k hk) (by simpa using hfail)
  refine ⟨batches1000_flatten _, ?_, ?_, ?_, ?_, ?_⟩
  · exact batchesAux_sizes _ [] 1000 (by simp)
  · exact batchesAux_dropLast_sizes _ [] 1000 (by simp)
  · rw [sync_configured_eq]
    exact hloop.1
  · rw [sync_configured_eq]
    exact hloop.2.1
  · rw [sync_configured_eq]
    exact hloop.2.2

set_option maxRecDepth 1000000 in
/-- Witness for C2 on the specification's example: 2500 identical source
rows make exactly 3 batches of sizes 1000, 1000, 500; failing the second
POST (index 1) reports failure, attempts only the first two batches, and
keeps the first batch inserted. -/
theorem sync_batching_and_abort_witness :
    ((batches1000 ((List.replicate 2500 (SourceRow.mk "c" "Tornillos de Acero" (some 5))).map
        (enrichProduct "t"))).map List.length = [1000, 1000, 500]) ∧
    (sync_catalog_to_supabase true
      (List.replicate 2500 (SourceRow.mk "c" "Tornillos de Acero" (some 5))) "t" 204
      (fun i => if i = 1 then 500 else 201)).success = false ∧
    (sync_catalog_to_supabase true
      (List.replicate 2500 (SourceRow.mk "c" "Tornillos de Acero" (some 5))) "t" 204
      (fun i => if i = 1 then 500 else 201)).batchesAttempted =
      (batches1000 ((List.replicate 2500 (SourceRow.mk "c" "Tornillos de Acero" (some 5))).map
        (enrichProduct "t"))).take 2 := by
  have h := sync_batching_and_abort
    (List.replicate 2500 (SourceRow.mk "c" "Tornillos de Acero" (some 5))) "t" 204
    (fun i => if i = 1 then 500 else 201) 1
    (by decide) (by decide) (by decide)
  exact ⟨by decide, h.2.2.2.1, h.2.2.2.2.1⟩

/-- C7: a non-success status from the mirror-store bulk delete does not
abort the pipeline: every insert-phase observable (success flag, batches
attempted, batches inserted, total) is the same for any two delete
statuses, and the delete is always issued when the store is configured. -/
theorem sync_delete_status_ignored (rows : List SourceRow) (now : String)
    (st : Nat → Nat) (d1 d2 : Nat) :
    (sync_catalog_to_supabase true rows now d1 st).success =
      (sync_catalog_to_supabase true rows now d2 st).success ∧
    (sync_catalog_to_supabase true rows now d1 st).batchesAttempted =
      (sync_catalog_to_supabase true rows now d2 st).batchesAttempted ∧
    (sync_catalog_to_supabase true rows now d1 st).batchesInserted =
      (sync_catalog_to_supabase true rows now d2 st).batchesInserted ∧
    (sync_catalog_to_supabase true rows now d1 st).totalInserted =
      (sync_catalog_to_supabase true rows now d2 st).totalInserted ∧
    (sync_catalog_to_supabase true rows now d1 st).deleteIssued = true :=
  ⟨rfl, rfl, rfl, rfl, rfl⟩

/-- C8: with the mirror store configured and zero eligible source rows the
pipeline still issues the bulk delete, posts no insert batch, and reports
success with 0 records inserted. -/
theorem sync_zero_rows (now : String) (dSt : Nat) (st : Nat → Nat) :
    (sync_catalog_to_supabase true [] now dSt st).success = true ∧
    (sync_catalog_to_supabase true [] now dSt st).deleteIssued = true ∧
    (sync_catalog_to_supabase true [] now dSt st).batchesAttempted = [] ∧
    (sync_catalog_to_supabase true [] now dSt st).totalInserted = 0 :=
  ⟨rfl, rfl, rfl, rfl⟩
